import Mathlib

/-!
Shallow embedding of the quiz session / scoring / ranking core of the
SOCCER_QUIZ_MIRACLE_GENERATION backend
(`supabase/functions/make-server-4d5764ce/{quiz-session-module, scoring-module,
ranking-module}.tsx`), together with proofs about the embedded operations.

Modelling conventions:
- The key-value store is a `KVState` record with one component per key family
  (`user:{id}:active_session`, `{sessionId} -> Session`, `user_profile:{id}`,
  `fastest:{quizId}`, `ranking:cache`, `ranking:cache:timestamp`).  User
  profiles are an association list because the code enumerates them with a
  prefix scan; the other families are only ever accessed by exact key and are
  modelled as functions to `Option`.
- ISO-8601 timestamps are modelled by their epoch-millisecond values (`Int`),
  which is all the code ever extracts from them (`new Date(x).getTime()`).
- JS numbers holding scores, counters and lengths are modelled as `Nat`
  (they are only ever 0-initialised and incremented); durations and clock
  differences are `Int`.
- A `throw new Error(msg)` is `Err.error msg`; a runtime TypeError from
  reading a property of `undefined` is `Err.typeError`.
- State-mutating operations return the post-state explicitly; operations that
  only read return their result alone.
-/

/-- JSON value shape of a stored question (`types.tsx` `Question`). -/
structure Question where
  id : String
  question : String
  options : List String
  correctAnswer : String
  team : String
  createdBy : String
  createdAt : String
deriving Repr, DecidableEq

/-- One recorded answer (`types.tsx` `Answer`). -/
structure Answer where
  questionId : String
  answer : String
  correct : Bool
  points : Nat
deriving Repr, DecidableEq

/-- `QuizSession.status` (`'active' | 'completed'`). -/
inductive SessionStatus where
  | active
  | completed
deriving Repr, DecidableEq

/-- A quiz session (`types.tsx` `QuizSession`); timestamps as epoch ms. -/
structure QuizSession where
  sessionId : String
  userId : String
  quizId : String
  team : String
  questions : List Question
  currentQuestion : Nat
  score : Nat
  answers : List Answer
  startedAt : Int
  status : SessionStatus
  completedAt : Option Int
deriving Repr, DecidableEq

/-- A user profile (`types.tsx` `UserProfile`). -/
structure UserProfile where
  id : String
  email : String
  name : String
  role : String
  totalScore : Nat
  gamesPlayed : Nat
deriving Repr, DecidableEq

/-- Per-quiz fastest-player record (`types.tsx` `FastestEntry`). -/
structure FastestEntry where
  userId : String
  name : String
  quizId : String
  durationMs : Int
  score : Nat
  completedAt : Int
deriving Repr, DecidableEq

/-- Leaderboard row (`types.tsx` `RankingEntry`). -/
structure RankingEntry where
  position : Nat
  userId : String
  name : String
  totalScore : Nat
  gamesPlayed : Nat
  average : String
deriving Repr, DecidableEq

/-- The slice of the key-value store the core reads and writes. -/
structure KVState where
  activeSession : String → Option String
  sessions : String → Option QuizSession
  profiles : List (String × UserProfile)
  fastest : String → Option FastestEntry
  rankingCache : Option (List RankingEntry)
  rankingCacheTs : Option Int

/-- Failure of an operation: an explicit `throw new Error(msg)`, or a runtime
TypeError (property access on `undefined`). -/
inductive Err where
  | error (msg : String)
  | typeError
deriving Repr, DecidableEq

/-- Association-list read (`kv.get` on the profile family). -/
def getA {α : Type} (l : List (String × α)) (k : String) : Option α :=
  match l.find? (fun kv => kv.1 = k) with
  | some kv => some kv.2
  | none => none

/-- Association-list write (`kv.set` on the profile family): overwrite the
entry when the key is present, append it otherwise. -/
def setA {α : Type} (l : List (String × α)) (k : String) (v : α) :
    List (String × α) :=
  if l.any (fun kv => kv.1 = k) then
    l.map (fun kv => if kv.1 = k then (k, v) else kv)
  else
    l ++ [(k, v)]

/-- Projection returned to the client by `getCurrentQuestion`: only id,
prompt and options (the literal in `quiz-session-module.tsx` lines 97-101). -/
structure QuestionView where
  id : String
  question : String
  options : List String
deriving Repr, DecidableEq

/-- Result shape of `getCurrentQuestion`. -/
structure CurrentQuestionResult where
  question : QuestionView
  currentQuestion : Nat
  totalQuestions : Nat
  score : Nat
deriving Repr, DecidableEq

/-- `QuizSessionModule.getCurrentQuestion` (quiz-session-module.tsx 69-106).
Pure read: looks up the active-session pointer, then the session record,
rejects a non-active session, rejects an out-of-range index, and returns the
three-field projection of the current question. -/
def getCurrentQuestion (s : KVState) (userId : String) :
    Except Err CurrentQuestionResult :=
  match s.activeSession userId with
  | none => Except.error (Err.error "No active quiz session")
  | some sessionId =>
    match s.sessions sessionId with
    | none => Except.error (Err.error "Session not found")
    | some sessionData =>
      if sessionData.status ≠ SessionStatus.active then
        Except.error (Err.error "Quiz session is not active")
      else
        match sessionData.questions[sessionData.currentQuestion]? with
        | none => Except.error (Err.error "No more questions")
        | some currentQuestion =>
          Except.ok
            { question :=
                { id := currentQuestion.id
                  question := currentQuestion.question
                  options := currentQuestion.options }
              currentQuestion := sessionData.currentQuestion + 1
              totalQuestions := sessionData.questions.length
              score := sessionData.score }

/-- Result shape of `submitAnswer`. -/
structure SubmitResult where
  correct : Bool
  correctAnswer : String
  points : Nat
  totalScore : Nat
  hasMoreQuestions : Bool
deriving Repr, DecidableEq

/-- `QuizSessionModule.submitAnswer` (quiz-session-module.tsx 111-154).
Note two faithful asymmetries with `getCurrentQuestion`: the code performs
no `status` check, and when `currentQuestion` is past the end the expression
`currentQuestion.correctAnswer` is a property read on `undefined`, i.e. a
runtime TypeError, modelled as `Err.typeError`.  All failures happen before
the single `kv.set`, so the pre-state is returned unchanged on failure. -/
def submitAnswer (s : KVState) (userId answer : String) :
    KVState × Except Err SubmitResult :=
  match s.activeSession userId with
  | none => (s, Except.error (Err.error "No active quiz session"))
  | some sessionId =>
    match s.sessions sessionId with
    | none => (s, Except.error (Err.error "Session not found"))
    | some sessionData =>
      match sessionData.questions[sessionData.currentQuestion]? with
      | none => (s, Except.error Err.typeError)
      | some currentQuestion =>
        let isCorrect := answer == currentQuestion.correctAnswer
        let pointsEarned := if isCorrect then 100 else 0
        let updated : QuizSession :=
          { sessionData with
            score := sessionData.score + pointsEarned
            answers := sessionData.answers ++
              [{ questionId := currentQuestion.id
                 answer := answer
                 correct := isCorrect
                 points := pointsEarned }]
            currentQuestion := sessionData.currentQuestion + 1 }
        let hasMoreQuestions :=
          decide (updated.currentQuestion < updated.questions.length)
        ({ s with
           sessions := fun k => if k = sessionId then some updated else s.sessions k },
         Except.ok
           { correct := isCorrect
             correctAnswer := currentQuestion.correctAnswer
             points := pointsEarned
             totalScore := updated.score
             hasMoreQuestions := hasMoreQuestions })

/-- Erase the correct-answer field of a question. -/
def scrubQuestion (q : Question) : Question := { q with correctAnswer := "" }

/-- Erase every correct-answer field in a session. -/
def scrubSession (sd : QuizSession) : QuizSession :=
  { sd with questions := sd.questions.map scrubQuestion }

/-- Erase every correct-answer field stored anywhere in the state. -/
def scrubState (s : KVState) : KVState :=
  { s with sessions := fun k => (s.sessions k).map scrubSession }

/-- Invariance of `getCurrentQuestion` under erasure of every stored
correct-answer field: the operation never reads that field. -/
theorem getCurrentQuestion_scrub (s : KVState) (u : String) :
    getCurrentQuestion (scrubState s) u = getCurrentQuestion s u := by
  unfold getCurrentQuestion scrubState
  cases hA : s.activeSession u with
  | none => rfl
  | some sid =>
    simp only
    cases hS : s.sessions sid with
    | none => rfl
    | some sd =>
      simp only [Option.map_some']
      unfold scrubSession
      by_cases hst : sd.status = SessionStatus.active
      · simp only [hst, ne_eq, not_true_eq_false, if_false, ite_false]
        cases hQ : sd.questions[sd.currentQuestion]? with
        | none => simp [List.getElem?_map, hQ]
        | some cq => simp [List.getElem?_map, hQ, scrubQuestion]
      · simp [hst]

/-- Example questions and session used to witness the theorems. -/
def qA : Question :=
  { id := "q1", question := "Who won?", options := ["A", "B"],
    correctAnswer := "A", team := "general", createdBy := "adm",
    createdAt := "t0" }

def qB : Question :=
  { id := "q2", question := "When?", options := ["C", "D"],
    correctAnswer := "D", team := "general", createdBy := "adm",
    createdAt := "t0" }

def sdEx : QuizSession :=
  { sessionId := "sess1", userId := "u1", quizId := "quiz1", team := "general",
    questions := [qA, qB], currentQuestion := 0, score := 0, answers := [],
    startedAt := 1000, status := SessionStatus.active, completedAt := none }

def exS1 : KVState :=
  { activeSession := fun k => if k = "u1" then some "sess1" else none
    sessions := fun k => if k = "sess1" then some sdEx else none
    profiles := []
    fastest := fun _ => none
    rankingCache := none
    rankingCacheTs := none }

/-- C1: for an active session whose current index points at a stored question,
`submitAnswer` awards 100 points exactly when the submitted text equals the
question's correct answer (0 otherwise, including the empty string), appends
one answer record, adds the points to the session score, advances the index
by exactly 1, persists the updated session under its key, and reports
`hasMoreQuestions` iff the new index is strictly below the question count. -/
theorem submitAnswer_correctness (s : KVState) (u ans sid : String)
    (sd : QuizSession) (cq : Question)
    (h1 : s.activeSession u = some sid) (h2 : s.sessions sid = some sd)
    (hact : sd.status = SessionStatus.active)
    (h3 : sd.questions[sd.currentQuestion]? = some cq) :
    submitAnswer s u ans =
      ({ s with sessions := fun k =>
           if k = sid then
             some { sd with
               score := sd.score + (if ans = cq.correctAnswer then 100 else 0)
               answers := sd.answers ++
                 [{ questionId := cq.id
                    answer := ans
                    correct := decide (ans = cq.correctAnswer)
                    points := if ans = cq.correctAnswer then 100 else 0 }]
               currentQuestion := sd.currentQuestion + 1 }
           else s.sessions k },
       Except.ok
         { correct := decide (ans = cq.correctAnswer)
           correctAnswer := cq.correctAnswer
           points := if ans = cq.correctAnswer then 100 else 0
           totalScore := sd.score + (if ans = cq.correctAnswer then 100 else 0)
           hasMoreQuestions :=
             decide (sd.currentQuestion + 1 < sd.questions.length) }) := by
  simp only [submitAnswer, h1, h2, h3]
  by_cases hc : ans = cq.correctAnswer
  · simp [hc]
  · have hb : (ans == cq.correctAnswer) = false := by
      simp [hc]
    simp [hc, hb]

theorem submitAnswer_correctness_witness :
    (submitAnswer exS1 "u1" "A").2 =
      Except.ok
        { correct := true, correctAnswer := "A", points := 100,
          totalScore := 100, hasMoreQuestions := true } := by
  have h := submitAnswer_correctness exS1 "u1" "A" "sess1" sdEx qA
    rfl rfl rfl rfl
  rw [h]
  rfl

/-- C2: whenever `getCurrentQuestion` succeeds, the question object in its
result is exactly the three-field projection {id, prompt, options} of the
stored current question — it carries no correct-answer field (the result
type has none), and the whole operation is invariant under erasing every
stored correct answer, so no part of the output depends on that field. -/
theorem getCurrentQuestion_answer_free (s : KVState) (u sid : String)
    (sd : QuizSession) (cq : Question)
    (h1 : s.activeSession u = some sid) (h2 : s.sessions sid = some sd)
    (hact : sd.status = SessionStatus.active)
    (h3 : sd.questions[sd.currentQuestion]? = some cq) :
    getCurrentQuestion s u =
      Except.ok
        { question := { id := cq.id, question := cq.question,
                        options := cq.options }
          currentQuestion := sd.currentQuestion + 1
          totalQuestions := sd.questions.length
          score := sd.score } ∧
    getCurrentQuestion (scrubState s) u = getCurrentQuestion s u := by
  constructor
  · simp [getCurrentQuestion, h1, h2, hact, h3]
  · exact getCurrentQuestion_scrub s u

theorem getCurrentQuestion_answer_free_witness :
    getCurrentQuestion exS1 "u1" =
      Except.ok
        { question := { id := "q1", question := "Who won?",
                        options := ["A", "B"] }
          currentQuestion := 1, totalQuestions := 2, score := 0 } := by
  have h := (getCurrentQuestion_answer_free exS1 "u1" "sess1" sdEx qA
    rfl rfl rfl rfl).1
  rw [h]
  rfl

/-- The example session after completion, and a state whose active pointer
still references it: `getCurrentQuestion` rejects it but `submitAnswer`
happily processes it, because `submitAnswer` never checks `status`. -/
def sdDone : QuizSession := { sdEx with status := SessionStatus.completed }

def exS3 : KVState :=
  { exS1 with sessions := fun k => if k = "sess1" then some sdDone else none }

/-- C3 counterexample: on a session whose status is `completed` (and whose
index is in range), `getCurrentQuestion` fails with "Quiz session is not
active" but `submitAnswer` succeeds (and mutates the session) — so
`submitAnswer` does not share `getCurrentQuestion`'s failure modes. -/
theorem submitAnswer_status_check_cex :
    getCurrentQuestion exS3 "u1" =
      Except.error (Err.error "Quiz session is not active") ∧
    (submitAnswer exS3 "u1" "A").2 =
      Except.ok
        { correct := true, correctAnswer := "A", points := 100,
          totalScore := 100, hasMoreQuestions := true } :=
  ⟨rfl, rfl⟩

/-- C3 (amended): `submitAnswer` shares only the first two failure modes of
`getCurrentQuestion` — missing active-session pointer and missing session
record, each leaving the state unchanged.  It performs no status check (it
succeeds on any session whose index is in range, whatever the status), and
when the index is past the end of the question list it fails with a runtime
TypeError (property read on `undefined`), not a thrown NotFound error, again
leaving the state unchanged. -/
theorem submitAnswer_failure_modes (s : KVState) (u a : String) :
    (s.activeSession u = none →
      submitAnswer s u a = (s, Except.error (Err.error "No active quiz session")) ∧
      getCurrentQuestion s u = Except.error (Err.error "No active quiz session")) ∧
    (∀ sid, s.activeSession u = some sid → s.sessions sid = none →
      submitAnswer s u a = (s, Except.error (Err.error "Session not found")) ∧
      getCurrentQuestion s u = Except.error (Err.error "Session not found")) ∧
    (∀ sid sd, s.activeSession u = some sid → s.sessions sid = some sd →
      sd.questions[sd.currentQuestion]? = none →
      submitAnswer s u a = (s, Except.error Err.typeError)) ∧
    (∀ sid sd cq, s.activeSession u = some sid → s.sessions sid = some sd →
      sd.questions[sd.currentQuestion]? = some cq →
      ((submitAnswer s u a).2).isOk = true) := by
  refine ⟨fun h0 => ?_, fun sid hp hs => ?_, fun sid sd hp hs hq => ?_,
    fun sid sd cq hp hs hq => ?_⟩
  · constructor
    · simp [submitAnswer, h0]
    · simp [getCurrentQuestion, h0]
  · constructor
    · simp [submitAnswer, hp, hs]
    · simp [getCurrentQuestion, hp, hs]
  · simp [submitAnswer, hp, hs, hq]
  · simp [submitAnswer, hp, hs, hq, Except.isOk, Except.toBool]

theorem submitAnswer_failure_modes_witness :
    (submitAnswer exS3 "u2" "A").2 =
      Except.error (Err.error "No active quiz session") := by
  have h := ((submitAnswer_failure_modes exS3 "u2" "A").1 rfl).1
  rw [h]

/-- Duration of a session (scoring-module.tsx 53-55 and 124-126):
completion time minus start time, with 0 when no completion timestamp. -/
def sessionDurationMs (sd : QuizSession) : Int :=
  match sd.completedAt with
  | some c => c - sd.startedAt
  | none => 0

/-- `ScoringModule.updateUserScore` (scoring-module.tsx 68-76): add the
session score to the profile's total, bump the games counter, persist;
silent no-op when the user has no profile. -/
def updateUserScore (s : KVState) (userId : String) (scoreToAdd : Nat) :
    KVState :=
  match getA s.profiles userId with
  | none => s
  | some p =>
    let p2 : UserProfile :=
      { p with totalScore := p.totalScore + scoreToAdd
               gamesPlayed := p.gamesPlayed + 1 }
    { s with profiles := setA s.profiles userId p2 }

/-- JS `Math.round`: nearest integer, halves toward positive infinity. -/
def jsMathRound (x : Rat) : Int := Int.floor (x + 1 / 2)

/-- Result shape of `getUserStats`; the JS number `averageScore` is a `Rat`
(the code only ever produces integer tenths). -/
structure UserStats where
  totalScore : Nat
  gamesPlayed : Nat
  averageScore : Rat
deriving Repr, DecidableEq

/-- `ScoringModule.getUserStats` (scoring-module.tsx 81-105). -/
def getUserStats (s : KVState) (userId : String) : UserStats :=
  match getA s.profiles userId with
  | none => { totalScore := 0, gamesPlayed := 0, averageScore := 0 }
  | some p =>
    let averageScore : Rat :=
      if 0 < p.gamesPlayed then (p.totalScore : Rat) / (p.gamesPlayed : Rat)
      else 0
    { totalScore := p.totalScore
      gamesPlayed := p.gamesPlayed
      averageScore := (jsMathRound (averageScore * 10) : Rat) / 10 }

/-- `ScoringModule.trackFastestPlayer` (scoring-module.tsx 123-153).
`now` stands for `new Date()` in the `completedAt ||` fallback. -/
def trackFastestPlayer (s : KVState) (sd : QuizSession) (now : Int) :
    KVState :=
  let durationMs := sessionDurationMs sd
  match getA s.profiles sd.userId with
  | none => s
  | some profile =>
    let entry : FastestEntry :=
      { userId := sd.userId
        name := profile.name
        quizId := sd.quizId
        durationMs := durationMs
        score := sd.score
        completedAt := sd.completedAt.getD now }
    match s.fastest sd.quizId with
    | none =>
      { s with fastest := fun k => if k = sd.quizId then some entry else s.fastest k }
    | some current =>
      let isFaster :=
        0 < durationMs ∧ (current.durationMs = 0 ∨ durationMs < current.durationMs)
      let isHigherScore := current.score < sd.score
      if isFaster ∨ isHigherScore then
        { s with fastest := fun k => if k = sd.quizId then some entry else s.fastest k }
      else s

/-- `RankingModule.invalidateCache` (ranking-module.tsx 93-96). -/
def invalidateCache (s : KVState) : KVState :=
  { s with rankingCache := none, rankingCacheTs := none }

/-- `(totalScore / gamesPlayed).toFixed(1)` (ranking-module.tsx 54): the
quotient rounded to the nearest tenth, halves upward, rendered `"a.b"`.
`(20 * num + den) / (2 * den)` is `⌊10 * num / den + 1 / 2⌋` in `Nat`. -/
def toFixed1 (num den : Nat) : String :=
  let tenths := (20 * num + den) / (2 * den)
  toString (tenths / 10) ++ "." ++ toString (tenths % 10)

/-- The entry built for sorted position `index` (ranking-module.tsx 47-56). -/
def mkRankingEntry (index : Nat) (p : UserProfile) : RankingEntry :=
  { position := index + 1
    userId := p.id
    name := p.name
    totalScore := p.totalScore
    gamesPlayed := p.gamesPlayed
    average :=
      if 0 < p.gamesPlayed then toFixed1 p.totalScore p.gamesPlayed else "0.0" }

/-- The comparator `(a, b) => b.totalScore - a.totalScore` as a sort order:
`a` may precede `b` iff `a.totalScore ≥ b.totalScore`.  JS `Array.sort` is
stable (ES2019), so it computes exactly the stable sort by this order. -/
def rankLe (a b : UserProfile) : Bool := decide (b.totalScore ≤ a.totalScore)

/-- `RankingModule.calculateRanking` (ranking-module.tsx 39-59): scan all
profiles, keep those with `gamesPlayed > 0`, stable-sort by descending
`totalScore`, number from 1. -/
def calculateRanking (s : KVState) : List RankingEntry :=
  let profs := (s.profiles.map Prod.snd).filter (fun p => 0 < p.gamesPlayed)
  let sorted := profs.mergeSort rankLe
  sorted.enum.map (fun ip => mkRankingEntry ip.1 ip.2)

/-- `RankingModule.getRankingFromCache` (ranking-module.tsx 64-80): `none`
when either the cached list or the timestamp is absent, or when the cache is
older than `CACHE_TTL_MS = 30000`. -/
def getRankingFromCache (s : KVState) (now : Int) :
    Option (List RankingEntry) :=
  match s.rankingCache, s.rankingCacheTs with
  | some cached, some ts => if now - ts > 30000 then none else some cached
  | _, _ => none

/-- `RankingModule.cacheRanking` (ranking-module.tsx 85-88). -/
def cacheRanking (s : KVState) (ranking : List RankingEntry) (now : Int) :
    KVState :=
  { s with rankingCache := some ranking, rankingCacheTs := some now }

/-- `RankingModule.getGlobalRanking` (ranking-module.tsx 23-34). -/
def getGlobalRanking (s : KVState) (now : Int) :
    KVState × List RankingEntry :=
  match getRankingFromCache s now with
  | some cached => (s, cached)
  | none =>
    let ranking := calculateRanking s
    (cacheRanking s ranking now, ranking)

/-- `Array.prototype.slice(0, limit)`: a negative `limit` counts from the
end (`end = max(length + limit, 0)`), a `limit` beyond the length is clamped
to the length. -/
def jsSlice0 {α : Type} (l : List α) (limit : Int) : List α :=
  if limit < 0 then l.take (l.length - limit.natAbs)
  else l.take limit.toNat

/-- `RankingModule.getTopPlayers` (ranking-module.tsx 110-113). -/
def getTopPlayers (s : KVState) (now : Int) (limit : Int) :
    KVState × List RankingEntry :=
  let res := getGlobalRanking s now
  (res.1, jsSlice0 res.2 limit)

/-- Zero the cumulative counters of a profile (ranking-module.tsx 153-157). -/
def resetProfile (p : UserProfile) : UserProfile :=
  { p with totalScore := 0, gamesPlayed := 0 }

/-- `RankingModule.resetAllRankings` (ranking-module.tsx 148-162): for every
stored profile, in scan order, write the zeroed profile back under the key
`user_profile:{profile.id}`, then invalidate the ranking cache. -/
def resetAllRankings (s : KVState) : KVState :=
  let ps := s.profiles.map Prod.snd
  invalidateCache
    { s with profiles :=
        ps.foldl (fun acc p => setA acc p.id (resetProfile p)) s.profiles }

theorem getA_cons {α : Type} (e : String × α) (t : List (String × α))
    (k : String) : getA (e :: t) k = if e.1 = k then some e.2 else getA t k := by
  unfold getA
  by_cases h : e.1 = k
  · rw [List.find?_cons_of_pos _ (by simp [h])]
    simp [h]
  · rw [List.find?_cons_of_neg _ (by simp [h])]
    simp [h]

theorem setA_cons_ne {α : Type} (e : String × α) (t : List (String × α))
    (k : String) (v : α) (h : e.1 ≠ k) : setA (e :: t) k v = e :: setA t k v := by
  unfold setA
  by_cases ht : t.any (fun kv => kv.1 = k)
  · simp [List.any_cons, h, ht]
  · simp [List.any_cons, h, ht]

theorem setA_cons_eq {α : Type} (e : String × α) (t : List (String × α))
    (k : String) (v : α) (h : e.1 = k) :
    setA (e :: t) k v = (k, v) :: t.map (fun kv => if kv.1 = k then (k, v) else kv) := by
  unfold setA
  simp [List.any_cons, h]

theorem getA_map_set_ne {α : Type} (t : List (String × α)) (k k' : String)
    (v : α) (h : k' ≠ k) :
    getA (t.map (fun kv => if kv.1 = k then (k, v) else kv)) k' = getA t k' := by
  induction t with
  | nil => rfl
  | cons e t ih =>
    rw [List.map_cons, getA_cons, getA_cons, ih]
    by_cases he : e.1 = k
    · simp [he, Ne.symm h]
    · simp [he]

theorem getA_setA_self {α : Type} (l : List (String × α)) (k : String)
    (v : α) : getA (setA l k v) k = some v := by
  induction l with
  | nil => simp [setA, getA_cons]
  | cons e t ih =>
    by_cases he : e.1 = k
    · rw [setA_cons_eq e t k v he, getA_cons]
      simp
    · rw [setA_cons_ne e t k v he, getA_cons, ih]
      simp [he]

theorem getA_setA_ne {α : Type} (l : List (String × α)) (k k' : String)
    (v : α) (h : k' ≠ k) : getA (setA l k v) k' = getA l k' := by
  induction l with
  | nil =>
    simp [setA, getA_cons, Ne.symm h]
  | cons e t ih =>
    by_cases he : e.1 = k
    · rw [setA_cons_eq e t k v he, getA_cons, getA_cons,
        getA_map_set_ne t k k' v h]
      simp [Ne.symm h, he ▸ (Ne.symm h : k ≠ k')]
    · rw [setA_cons_ne e t k v he, getA_cons, getA_cons, ih]

theorem getA_resetFold (ps : List UserProfile)
    (acc : List (String × UserProfile)) (u : String) :
    getA (ps.foldl (fun a p => setA a p.id (resetProfile p)) acc) u =
      match ps.reverse.find? (fun p => p.id = u) with
      | some q => some (resetProfile q)
      | none => getA acc u := by
  induction ps generalizing acc with
  | nil => rfl
  | cons p t ih =>
    rw [List.foldl_cons, ih, List.reverse_cons, List.find?_append]
    cases hf : t.reverse.find? (fun q => q.id = u) with
    | some q => simp
    | none =>
      by_cases hp : p.id = u
      · rw [List.find?_cons_of_pos _ (by simp [hp])]
        simp [hp ▸ getA_setA_self acc p.id (resetProfile p), hp]
      · rw [List.find?_cons_of_neg _ (by simp [hp])]
        simp [getA_setA_ne acc p.id u (resetProfile p) (fun h => hp h.symm)]

theorem getA_mem_keys {α : Type} (l : List (String × α)) (u : String) (q : α)
    (h : getA l u = some q) : u ∈ l.map Prod.fst := by
  induction l with
  | nil => simp [getA] at h
  | cons e t ih =>
    rw [getA_cons] at h
    by_cases he : e.1 = u
    · simp [he.symm]
    · rw [if_neg he] at h
      simp only [List.map_cons, List.mem_cons]
      exact Or.inr (ih h)

theorem find?_values_eq_getA (l : List (String × UserProfile)) (u : String)
    (wf : ∀ e ∈ l, e.2.id = e.1) (nd : (l.map Prod.fst).Nodup) :
    (l.map Prod.snd).reverse.find? (fun p => p.id = u) = getA l u := by
  induction l with
  | nil => rfl
  | cons e t ih =>
    have wf2 : ∀ x ∈ t, x.2.id = x.1 := fun x hx => wf x (List.mem_cons_of_mem _ hx)
    have nd1 : (e.1 :: t.map Prod.fst).Nodup := by
      rw [List.map_cons] at nd
      exact nd
    have nd0 := List.nodup_cons.mp nd1
    rw [List.map_cons, List.reverse_cons, List.find?_append, ih wf2 nd0.2,
      getA_cons]
    cases hg : getA t u with
    | some q =>
      have hu : u ∈ t.map Prod.fst := getA_mem_keys t u q hg
      have hne : e.1 ≠ u := fun he => nd0.1 (he ▸ hu)
      simp [hne]
    | none =>
      have hid : e.2.id = e.1 := wf e (List.mem_cons_self e t)
      by_cases he : e.1 = u
      · simp [he, hid, List.find?_cons]
      · simp only [Option.none_or, if_neg he]
        rw [List.find?_cons_of_neg _ (by simp [hid, he]), List.find?_nil]

theorem resetAllRankings_getA (s : KVState)
    (wf : ∀ e ∈ s.profiles, e.2.id = e.1)
    (nd : (s.profiles.map Prod.fst).Nodup) (u : String) :
    getA (resetAllRankings s).profiles u =
      (getA s.profiles u).map resetProfile := by
  unfold resetAllRankings invalidateCache
  simp only
  rw [getA_resetFold, find?_values_eq_getA s.profiles u wf nd]
  cases getA s.profiles u <;> rfl

def pAlice : UserProfile :=
  { id := "u1", email := "a@x", name := "Alice", role := "player",
    totalScore := 100, gamesPlayed := 2 }

def exS4 : KVState :=
  { activeSession := fun _ => none, sessions := fun _ => none,
    profiles := [("u1", pAlice)], fastest := fun _ => none,
    rankingCache := none, rankingCacheTs := none }

/-- C4 counterexample: `resetAllRankings` — an operation of this core — takes
a profile with totalScore 100 and gamesPlayed 2 to totalScore 0 and
gamesPlayed 0, so the two fields do not only increase and are not changed
only by `updateUserScore`. -/
theorem profile_monotonicity_cex :
    (getA exS4.profiles "u1").map UserProfile.totalScore = some 100 ∧
    (getA (resetAllRankings exS4).profiles "u1").map
      UserProfile.totalScore = some 0 ∧
    (getA exS4.profiles "u1").map UserProfile.gamesPlayed = some 2 ∧
    (getA (resetAllRankings exS4).profiles "u1").map
      UserProfile.gamesPlayed = some 0 :=
  ⟨rfl, rfl, rfl, rfl⟩

/-- C4 (amended): totalScore and gamesPlayed are changed by exactly two
operations of this core — `updateUserScore`, which only increases them
(adds the delta, bumps the counter, no-ops without a profile, touches no
other user), and `resetAllRankings`, which zeroes both fields of every
stored profile (stated under the store invariant that profiles sit under
their own id, with distinct keys).  The other modelled operations
(`submitAnswer`, `trackFastestPlayer`, `getGlobalRanking`,
`invalidateCache`) never touch the profile table. -/
theorem profile_mutation_spec (s : KVState) :
    (∀ u d p, getA s.profiles u = some p →
      getA (updateUserScore s u d).profiles u =
        some { p with totalScore := p.totalScore + d
                      gamesPlayed := p.gamesPlayed + 1 } ∧
      p.totalScore ≤ p.totalScore + d ∧
      p.gamesPlayed < p.gamesPlayed + 1) ∧
    (∀ u d, getA s.profiles u = none → updateUserScore s u d = s) ∧
    (∀ u d u2, u2 ≠ u →
      getA (updateUserScore s u d).profiles u2 = getA s.profiles u2) ∧
    ((∀ e ∈ s.profiles, e.2.id = e.1) → (s.profiles.map Prod.fst).Nodup →
      ∀ u, getA (resetAllRankings s).profiles u =
        (getA s.profiles u).map resetProfile) ∧
    (∀ u a, (submitAnswer s u a).1.profiles = s.profiles) ∧
    (∀ sd now, (trackFastestPlayer s sd now).profiles = s.profiles) ∧
    (∀ now, (getGlobalRanking s now).1.profiles = s.profiles) ∧
    ((invalidateCache s).profiles = s.profiles) := by
  refine ⟨fun u d p h => ?_, fun u d h => ?_, fun u d u2 h2 => ?_,
    fun wf nd u => ?_, fun u a => ?_, fun sd now => ?_, fun now => ?_, rfl⟩
  · simp only [updateUserScore, h]
    exact ⟨getA_setA_self s.profiles u _, Nat.le_add_right _ _,
      Nat.lt_succ_self _⟩
  · simp only [updateUserScore, h]
  · simp only [updateUserScore]
    cases hg : getA s.profiles u with
    | none => rfl
    | some p => exact getA_setA_ne s.profiles u u2 _ h2
  · exact resetAllRankings_getA s wf nd u
  · cases hA : s.activeSession u with
    | none => simp [submitAnswer, hA]
    | some sid =>
      cases hS : s.sessions sid with
      | none => simp [submitAnswer, hA, hS]
      | some sd =>
        cases hQ : sd.questions[sd.currentQuestion]? with
        | none => simp [submitAnswer, hA, hS, hQ]
        | some cq => simp [submitAnswer, hA, hS, hQ]
  · simp only [trackFastestPlayer]
    cases getA s.profiles sd.userId with
    | none => rfl
    | some profile =>
      cases s.fastest sd.quizId with
      | none => rfl
      | some cur =>
        dsimp only
        split
        · rfl
        · rfl
  · simp only [getGlobalRanking]
    cases getRankingFromCache s now with
    | none => rfl
    | some cached => rfl

theorem profile_mutation_spec_witness :
    getA (updateUserScore exS4 "u1" 50).profiles "u1" =
      some { pAlice with totalScore := 150, gamesPlayed := 3 } := by
  have h := ((profile_mutation_spec exS4).1 "u1" 50 pAlice rfl).1
  rw [h]
  rfl

/-- C5: with the candidate entry built from the session and the user's
profile, `trackFastestPlayer` stores the candidate unconditionally when no
entry is stored for the quiz, and with a stored entry it replaces it iff the
candidate is faster (candidate duration > 0 and (stored duration = 0 or
candidate < stored)) or the candidate's score is strictly higher — so a
slower run with a strictly higher score does overwrite the record. -/
theorem trackFastestPlayer_spec (s : KVState) (sd : QuizSession) (now : Int)
    (profile : UserProfile)
    (hp : getA s.profiles sd.userId = some profile) :
    (s.fastest sd.quizId = none →
      (trackFastestPlayer s sd now).fastest sd.quizId =
        some { userId := sd.userId, name := profile.name, quizId := sd.quizId,
               durationMs := sessionDurationMs sd, score := sd.score,
               completedAt := sd.completedAt.getD now }) ∧
    (∀ cur, s.fastest sd.quizId = some cur →
      (trackFastestPlayer s sd now).fastest sd.quizId =
        (if (0 < sessionDurationMs sd ∧
              (cur.durationMs = 0 ∨ sessionDurationMs sd < cur.durationMs)) ∨
            cur.score < sd.score
         then
           some { userId := sd.userId, name := profile.name,
                  quizId := sd.quizId, durationMs := sessionDurationMs sd,
                  score := sd.score, completedAt := sd.completedAt.getD now }
         else some cur)) := by
  constructor
  · intro h0
    simp [trackFastestPlayer, hp, h0]
  · intro cur hc
    simp only [trackFastestPlayer, hp, hc]
    split
    · simp
    · simp [hc]

def fOld : FastestEntry :=
  { userId := "u0", name := "Bob", quizId := "quiz1", durationMs := 5000,
    score := 100, completedAt := 123 }

def sdFast : QuizSession :=
  { sessionId := "sess9", userId := "u1", quizId := "quiz1", team := "general",
    questions := [], currentQuestion := 0, score := 150, answers := [],
    startedAt := 0, status := SessionStatus.completed,
    completedAt := some 8000 }

theorem trackFastestPlayer_spec_witness :
    (trackFastestPlayer
        { exS4 with fastest := fun k => if k = "quiz1" then some fOld else none }
        sdFast 999).fastest sdFast.quizId =
      some { userId := "u1", name := "Alice", quizId := "quiz1",
             durationMs := 8000, score := 150, completedAt := 8000 } := by
  have h := (trackFastestPlayer_spec
    { exS4 with fastest := fun k => if k = "quiz1" then some fOld else none }
    sdFast 999 pAlice rfl).2 fOld rfl
  rw [h]
  rfl

/-- Modelled from the spec wording for comparison: rounding to one decimal
place with halves away from zero. For the nonnegative values this code
produces it coincides with JS `Math.round(x * 10) / 10`. -/
def roundTenthsHalfAwayFromZero (x : Rat) : Rat :=
  if 0 ≤ x then ((Int.floor (10 * x + 1 / 2) : Int) : Rat) / 10
  else ((Int.ceil (10 * x - 1 / 2) : Int) : Rat) / 10

/-- C9: `getUserStats` returns zeros without failing when the user has no
profile; with a profile it returns the stored totals, and the average is
totalScore / gamesPlayed rounded to one decimal (half away from zero) when
gamesPlayed > 0, and 0 when gamesPlayed = 0. -/
theorem getUserStats_spec (s : KVState) (u : String) :
    (getA s.profiles u = none →
      getUserStats s u =
        { totalScore := 0, gamesPlayed := 0, averageScore := 0 }) ∧
    (∀ p, getA s.profiles u = some p →
      (getUserStats s u).totalScore = p.totalScore ∧
      (getUserStats s u).gamesPlayed = p.gamesPlayed ∧
      (p.gamesPlayed = 0 → (getUserStats s u).averageScore = 0) ∧
      (0 < p.gamesPlayed →
        (getUserStats s u).averageScore =
          roundTenthsHalfAwayFromZero
            ((p.totalScore : Rat) / (p.gamesPlayed : Rat)))) := by
  constructor
  · intro h
    simp [getUserStats, h]
  · intro p h
    refine ⟨?_, ?_, ?_, ?_⟩
    · simp [getUserStats, h]
    · simp [getUserStats, h]
    · intro h0
      simp [getUserStats, h, h0, jsMathRound]
      norm_num
    · intro hgp
      have hx : (0 : Rat) ≤ (p.totalScore : Rat) / (p.gamesPlayed : Rat) := by
        positivity
      simp only [getUserStats, h, if_pos hgp, roundTenthsHalfAwayFromZero,
        if_pos hx, jsMathRound, mul_comm]

def p9 : UserProfile :=
  { id := "u9", email := "n@x", name := "Nina", role := "player",
    totalScore := 250, gamesPlayed := 3 }

def exS9 : KVState :=
  { activeSession := fun _ => none, sessions := fun _ => none,
    profiles := [("u9", p9)], fastest := fun _ => none,
    rankingCache := none, rankingCacheTs := none }

theorem getUserStats_spec_witness :
    (getUserStats exS9 "u9").averageScore =
      roundTenthsHalfAwayFromZero ((p9.totalScore : Rat) / (p9.gamesPlayed : Rat)) :=
  ((getUserStats_spec exS9 "u9").2 p9 rfl).2.2.2 (by decide)

/-- C6: `getGlobalRanking` returns the cached list verbatim (no state
change) whenever both the cache value and its timestamp are present and the
age `now - ts` is at most 30,000 ms; in every other case (either component
absent, or age strictly greater than 30,000 ms) the cache read misses and
the operation overwrites both cache fields with the freshly computed
ranking and timestamp and returns that recomputed list. -/
theorem getGlobalRanking_cache_policy (s : KVState) (now : Int) :
    (∀ cached ts, s.rankingCache = some cached → s.rankingCacheTs = some ts →
      now - ts ≤ 30000 → getGlobalRanking s now = (s, cached)) ∧
    (s.rankingCache = none → getRankingFromCache s now = none) ∧
    (s.rankingCacheTs = none → getRankingFromCache s now = none) ∧
    (∀ cached ts, s.rankingCache = some cached → s.rankingCacheTs = some ts →
      30000 < now - ts → getRankingFromCache s now = none) ∧
    (getRankingFromCache s now = none →
      getGlobalRanking s now =
        ({ s with rankingCache := some (calculateRanking s)
                  rankingCacheTs := some now },
         calculateRanking s)) := by
  refine ⟨fun cached ts hc ht hage => ?_, fun hc => ?_, fun ht => ?_,
    fun cached ts hc ht hage => ?_, fun hmiss => ?_⟩
  · simp [getGlobalRanking, getRankingFromCache, hc, ht, not_lt.mpr hage]
  · simp [getRankingFromCache, hc]
  · cases hc : s.rankingCache <;> simp [getRankingFromCache, hc, ht]
  · simp [getRankingFromCache, hc, ht, hage]
  · simp [getGlobalRanking, hmiss, cacheRanking]

def r1 : RankingEntry :=
  { position := 1, userId := "u1", name := "Alice", totalScore := 300,
    gamesPlayed := 3, average := "100.0" }

def r2 : RankingEntry :=
  { position := 2, userId := "u2", name := "Bob", totalScore := 200,
    gamesPlayed := 2, average := "100.0" }

def r3 : RankingEntry :=
  { position := 3, userId := "u3", name := "Caz", totalScore := 100,
    gamesPlayed := 1, average := "100.0" }

def exS6 : KVState :=
  { activeSession := fun _ => none, sessions := fun _ => none,
    profiles := [], fastest := fun _ => none,
    rankingCache := some [r1, r2, r3], rankingCacheTs := some 1000 }

theorem getGlobalRanking_cache_policy_witness :
    getGlobalRanking exS6 31000 = (exS6, [r1, r2, r3]) :=
  (getGlobalRanking_cache_policy exS6 31000).1 [r1, r2, r3] 1000 rfl rfl
    (by decide)

/-- C8 counterexample: on a cached 3-entry leaderboard, `getTopPlayers`
with the non-positive limit -1 returns the first two entries
(`slice(0, -1)` drops only the last element), not the empty list. -/
theorem getTopPlayers_nonpositive_cex :
    (getTopPlayers exS6 1000 (-1)).2 = [r1, r2] ∧
    [r1, r2] ≠ ([] : List RankingEntry) :=
  ⟨rfl, by decide⟩

/-- C8 (amended): `getTopPlayers limit` returns `ranking.slice(0, limit)`:
limit = 0 yields the empty list, a limit at least the ranking's length
yields the entire ranking, and a negative limit yields all but the last
`min(-limit, length)` entries (JS negative-end slice semantics) rather
than the empty list. -/
theorem getTopPlayers_slice_spec (s : KVState) (now : Int) (limit : Int) :
    (getTopPlayers s now limit).1 = (getGlobalRanking s now).1 ∧
    (getTopPlayers s now limit).2 =
      (if limit < 0 then
        (getGlobalRanking s now).2.take
          ((getGlobalRanking s now).2.length - limit.natAbs)
      else (getGlobalRanking s now).2.take limit.toNat) ∧
    (limit = 0 → (getTopPlayers s now limit).2 = []) ∧
    (((getGlobalRanking s now).2.length : Int) ≤ limit →
      (getTopPlayers s now limit).2 = (getGlobalRanking s now).2) := by
  refine ⟨rfl, rfl, fun h0 => ?_, fun hlen => ?_⟩
  · subst h0
    simp [getTopPlayers, jsSlice0]
  · have hnn : (0 : Int) ≤ limit :=
      le_trans (Int.ofNat_nonneg _) hlen
    simp only [getTopPlayers, jsSlice0, if_neg (not_lt.mpr hnn)]
    exact List.take_of_length_le (by omega)

theorem getTopPlayers_slice_spec_witness :
    (getTopPlayers exS6 1000 0).2 = [] :=
  (getTopPlayers_slice_spec exS6 1000 0).2.2.1 rfl

theorem rankLe_trans (a b c : UserProfile) (h1 : rankLe a b = true)
    (h2 : rankLe b c = true) : rankLe a c = true := by
  simp only [rankLe, decide_eq_true_eq] at *
  exact le_trans h2 h1

theorem rankLe_total (a b : UserProfile) :
    (rankLe a b || rankLe b a) = true := by
  simp only [rankLe, Bool.or_eq_true, decide_eq_true_eq]
  exact Nat.le_total b.totalScore a.totalScore

/-- C7: `calculateRanking` contains exactly the stored profiles with
gamesPlayed > 0 (same multiset of projected fields, zero-game users never
appear), is ordered by totalScore descending, carries 1-based positions in
sorted order, and every entry's average is totalScore / gamesPlayed rounded
to one decimal and rendered as a one-decimal string. -/
theorem calculateRanking_spec (s : KVState) :
    ((calculateRanking s).map
        (fun e => (e.userId, e.name, e.totalScore, e.gamesPlayed))).Perm
      (((s.profiles.map Prod.snd).filter (fun p => 0 < p.gamesPlayed)).map
        (fun p => (p.id, p.name, p.totalScore, p.gamesPlayed))) ∧
    (calculateRanking s).Pairwise (fun a b => b.totalScore ≤ a.totalScore) ∧
    (calculateRanking s).map RankingEntry.position =
      List.range' 1 (calculateRanking s).length ∧
    ∀ e ∈ calculateRanking s,
      0 < e.gamesPlayed ∧ e.average = toFixed1 e.totalScore e.gamesPlayed := by
  have hperm :
      (((s.profiles.map Prod.snd).filter
          (fun p => 0 < p.gamesPlayed)).mergeSort rankLe).Perm
        ((s.profiles.map Prod.snd).filter (fun p => 0 < p.gamesPlayed)) :=
    List.mergeSort_perm _ rankLe
  refine ⟨?_, ?_, ?_, ?_⟩
  · unfold calculateRanking
    rw [List.map_map]
    rw [show ((fun e : RankingEntry =>
          (e.userId, e.name, e.totalScore, e.gamesPlayed)) ∘
        (fun ip : Nat × UserProfile => mkRankingEntry ip.1 ip.2)) =
        ((fun p : UserProfile => (p.id, p.name, p.totalScore, p.gamesPlayed)) ∘
          Prod.snd) from rfl]
    rw [← List.map_map, List.enum_map_snd]
    exact hperm.map _
  · have hsorted := List.sorted_mergeSort rankLe_trans rankLe_total
      ((s.profiles.map Prod.snd).filter (fun p => 0 < p.gamesPlayed))
    rw [← List.enum_map_snd (((s.profiles.map Prod.snd).filter
        (fun p => 0 < p.gamesPlayed)).mergeSort rankLe),
      List.pairwise_map] at hsorted
    unfold calculateRanking
    rw [List.pairwise_map]
    exact hsorted.imp (fun h => by
      simpa [rankLe, mkRankingEntry] using h)
  · unfold calculateRanking
    rw [List.map_map]
    rw [show (RankingEntry.position ∘
        (fun ip : Nat × UserProfile => mkRankingEntry ip.1 ip.2)) =
        ((fun i => 1 + i) ∘ Prod.fst) from funext (fun ip => Nat.add_comm ip.1 1)]
    rw [← List.map_map, List.enum_map_fst, List.length_map,
      List.enum_length, List.range_eq_range', List.map_add_range']
  · intro e he
    unfold calculateRanking at he
    obtain ⟨ip, hip, hmk⟩ := List.mem_map.mp he
    obtain ⟨i, p⟩ := ip
    have h3 := List.mem_enum hip
    have hpm : p ∈ ((s.profiles.map Prod.snd).filter
        (fun p => 0 < p.gamesPlayed)).mergeSort rankLe :=
      h3.2 ▸ List.getElem_mem h3.1
    have hpf := hperm.mem_iff.mp hpm
    have hgp : 0 < p.gamesPlayed := by
      simpa using (List.mem_filter.mp hpf).2
    subst hmk
    exact ⟨hgp, by simp [mkRankingEntry, hgp]⟩

def pZed : UserProfile :=
  { id := "u0z", email := "z@x", name := "Zed", role := "player",
    totalScore := 77, gamesPlayed := 0 }

def pCarl : UserProfile :=
  { id := "u2", email := "c@x", name := "Carl", role := "player",
    totalScore := 300, gamesPlayed := 4 }

def exS7 : KVState :=
  { activeSession := fun _ => none, sessions := fun _ => none,
    profiles := [("u1", pAlice), ("u0z", pZed), ("u2", pCarl)],
    fastest := fun _ => none, rankingCache := none, rankingCacheTs := none }

theorem calculateRanking_spec_witness :
    mkRankingEntry 0 pCarl ∈ calculateRanking exS7 ∧
    0 < (mkRankingEntry 0 pCarl).gamesPlayed ∧
    (mkRankingEntry 0 pCarl).average =
      toFixed1 (mkRankingEntry 0 pCarl).totalScore
        (mkRankingEntry 0 pCarl).gamesPlayed := by
  have hm : mkRankingEntry 0 pCarl ∈ calculateRanking exS7 := by
    simp [calculateRanking, exS7, List.mergeSort, rankLe, pAlice, pZed, pCarl,
      List.enum, List.enumFrom]
  exact ⟨hm, (calculateRanking_spec exS7).2.2.2 _ hm⟩

/-- One JS destructuring swap `[a[i], a[j]] = [a[j], a[i]]` on the copied
array (quiz-session-module.tsx 182).  Out-of-range indices leave the list
unchanged; the loop below only ever uses in-range indices. -/
def swapL {α : Type} (l : List α) (i j : Nat) : List α :=
  match l[i]?, l[j]? with
  | some a, some b => (l.set i b).set j a
  | _, _ => l

/-- The loop of `shuffleArray` (quiz-session-module.tsx 180-183): `i` runs
from `length - 1` down to `1`, swapping index `i` with the drawn index
`r i`; `Math.floor(Math.random() * (i + 1))` is abstracted as `r i`. -/
def fisherYatesLoop {α : Type} (l : List α) (i : Nat) (r : Nat → Nat) :
    List α :=
  match i with
  | 0 => l
  | i + 1 => fisherYatesLoop (swapL l (i + 1) (r (i + 1))) i r

/-- `QuizSessionModule.shuffleArray` (quiz-session-module.tsx 178-185):
copy the array (the embedding is pure, so the copy is implicit) and run the
Fisher–Yates loop over it. -/
def shuffleArray {α : Type} (l : List α) (r : Nat → Nat) : List α :=
  fisherYatesLoop l (l.length - 1) r

theorem cons_set_perm {α : Type} :
    ∀ (t : List α) (m : Nat) (a b : α), t[m]? = some b →
      (b :: t.set m a).Perm (a :: t) := by
  intro t
  induction t with
  | nil =>
    intro m a b h
    simp at h
  | cons y u ih =>
    intro m a b h
    cases m with
    | zero =>
      simp only [List.getElem?_cons_zero, Option.some.injEq] at h
      subst h
      simpa [List.set_cons_zero] using List.Perm.swap a y u
    | succ k =>
      simp only [List.getElem?_cons_succ] at h
      rw [List.set_cons_succ]
      exact ((List.Perm.swap y b (u.set k a)).trans
        ((ih k a b h).cons y)).trans (List.Perm.swap a y u)

theorem set_set_perm {α : Type} :
    ∀ (l : List α) (i j : Nat) (a b : α), l[i]? = some a → l[j]? = some b →
      ((l.set i b).set j a).Perm l := by
  intro l
  induction l with
  | nil =>
    intro i j a b ha _
    simp at ha
  | cons x t ih =>
    intro i j a b ha hb
    cases i with
    | zero =>
      simp only [List.getElem?_cons_zero, Option.some.injEq] at ha
      subst ha
      cases j with
      | zero =>
        simp only [List.getElem?_cons_zero, Option.some.injEq] at hb
        subst hb
        simp [List.set_cons_zero]
      | succ m =>
        simp only [List.getElem?_cons_succ] at hb
        rw [List.set_cons_zero, List.set_cons_succ]
        exact cons_set_perm t m x b hb
    | succ n =>
      simp only [List.getElem?_cons_succ] at ha
      cases j with
      | zero =>
        simp only [List.getElem?_cons_zero, Option.some.injEq] at hb
        subst hb
        rw [List.set_cons_succ, List.set_cons_zero]
        exact cons_set_perm t n x a ha
      | succ m =>
        simp only [List.getElem?_cons_succ] at hb
        rw [List.set_cons_succ, List.set_cons_succ]
        exact (ih n m a b ha hb).cons x

theorem swapL_perm {α : Type} (l : List α) (i j : Nat) :
    (swapL l i j).Perm l := by
  unfold swapL
  cases ha : l[i]? with
  | none => cases l[j]? <;> exact List.Perm.refl l
  | some a =>
    cases hb : l[j]? with
    | none => exact List.Perm.refl l
    | some b => exact set_set_perm l i j a b ha hb

theorem fisherYatesLoop_perm {α : Type} (r : Nat → Nat) :
    ∀ (i : Nat) (l : List α), (fisherYatesLoop l i r).Perm l := by
  intro i
  induction i with
  | zero =>
    intro l
    exact List.Perm.refl l
  | succ n ih =>
    intro l
    exact (ih (swapL l (n + 1) (r (n + 1)))).trans
      (swapL_perm l (n + 1) (r (n + 1)))

/-- C10: for every input list and every sequence of draws with `r i ≤ i`
(which is what `Math.floor(Math.random() * (i + 1))` produces at step `i`),
`shuffleArray` returns a permutation of its input: same length and same
multiset of elements.  The input list itself is untouched — the code swaps
only inside the `[...array]` copy, which the pure embedding reflects by
returning a new list. -/
theorem shuffleArray_is_permutation {α : Type} (l : List α) (r : Nat → Nat)
    (hr : ∀ i, r i ≤ i) :
    (shuffleArray l r).Perm l ∧
    (shuffleArray l r).length = l.length ∧
    ((shuffleArray l r : List α) : Multiset α) = (l : Multiset α) := by
  have h : (shuffleArray l r).Perm l := fisherYatesLoop_perm r (l.length - 1) l
  exact ⟨h, h.length_eq, Multiset.coe_eq_coe.mpr h⟩

theorem shuffleArray_is_permutation_witness :
    (shuffleArray [1, 2, 3] (fun i => i / 2)).Perm [1, 2, 3] :=
  (shuffleArray_is_permutation [1, 2, 3] (fun i => i / 2)
    (fun i => Nat.div_le_self i 2)).1
